import Mathlib

/-!
Verification development for the URL-decomposition helpers of `custom_api.py`:
the tokenizer and token classifier (`InnerPath`), the query-parameter builder
(`CustomGET`) and the CSV serialiser (`yield_csv_row` / `to_csv`).

The Python code is shallowly embedded: the mutable token list that the source
pops from in place becomes explicit remaining-token results, the raised
`InvalidUsage` exceptions and the `ValueError` that `datetime.date` raises for
an out-of-range year become `Except` errors, and Python string methods
(`split`, `strip`, `isdigit`, `int`, `str.join`, truthiness tests) are modelled
by executable Lean functions over `List Char` for the ASCII inputs the grammar
deals in.
-/

namespace CustomApi

/-- The tuple `ALLOWED_FREQUENCIES` of the source. -/
def ALLOWED_FREQUENCIES : List String := ["d", "w", "m", "q", "a"]

/-- The tuple `ALLOWED_REAL_RATES` of the source. -/
def ALLOWED_REAL_RATES : List String := ["rog", "yoy", "base"]

/-- The tuple `ALLOWED_AGGREGATORS` of the source. -/
def ALLOWED_AGGREGATORS : List String := ["eop", "avg"]

/-- The tuple `ALLOWED_FINALISERS` of the source. -/
def ALLOWED_FINALISERS : List String := ["info", "csv", "json", "xlsx"]

/-- Truthiness of an optional string, as Python evaluates it in a boolean
context: `None` and the empty string are falsy, every other string is truthy. -/
def pyTruthy : Option String → Bool
  | none => false
  | some s => s != ""

/-- Model of `str.isdigit` for ASCII data: true iff the string is non-empty and
all of its characters are decimal digits. -/
def isdigit (s : String) : Bool :=
  s != "" && s.data.all Char.isDigit

/-- Helper for `pySplit`: cut a character list at every separator occurrence,
keeping empty pieces, with `acc` holding the current piece reversed. -/
def splitChar (sep : Char) : List Char → List Char → List String
  | [], acc => [String.mk acc.reverse]
  | c :: cs, acc =>
    if c = sep then String.mk acc.reverse :: splitChar sep cs []
    else splitChar sep cs (c :: acc)

/-- Model of the Python `split` method with an explicit one-character
separator: empty pieces between, before and after separators are kept,
exactly as `"a//b/".split("/")` gives `["a", "", "b", ""]`. -/
def pySplit (sep : Char) (s : String) : List String :=
  splitChar sep s.data []

/-- Whitespace characters removed by the Python `strip` method
(the ASCII ones: space, tab, newline, carriage return, vertical tab,
form feed). -/
def isPySpace (c : Char) : Bool :=
  c = ' ' || c = '\t' || c = '\n' || c = '\r' || c = '\x0b' || c = '\x0c'

/-- Model of the Python `strip` method: drop leading and trailing
whitespace. -/
def pyStrip (s : String) : String :=
  String.mk ((s.data.dropWhile isPySpace).reverse.dropWhile isPySpace).reverse

/-- The token list built at line 81 of the source:
`[token.strip() for token in inner_path.split('/') if token]`.
Note that the `if token` filter tests the token BEFORE stripping, so a
whitespace-only segment passes the filter and is then stripped down to the
empty string. -/
def tokenize (inner_path : String) : List String :=
  ((pySplit '/' inner_path).filter (fun token => token != "")).map pyStrip

/-- Model of the Python `int` constructor on the all-digit strings the
classifier feeds it. -/
def pyInt (s : String) : Nat :=
  s.data.foldl (fun n c => n * 10 + (c.toNat - '0'.toNat)) 0

/-- Two-digit rendering of a month or day number, as the `%m` and `%d`
directives of `strftime` print them. -/
def pad2 (n : Nat) : String :=
  if n < 10 then "0" ++ toString n else toString n

/-- Payloads of the `InvalidUsage` exception raised by the source: the list of
conflicting values on an ambiguous classification (line 144), the fixed
message `Cannot combine rate and aggregation.` (line 90), and the message
naming an invalid frequency (line 169). -/
inductive InvalidUsage where
  | ambiguous (values_found : List String)
  | cannotCombine
  | invalidFrequency (freq : String)
deriving DecidableEq, Repr

/-- The exceptions that can escape `InnerPath.__init__`: the `InvalidUsage`
payloads the classifier raises itself, and the `ValueError` that the
`datetime.date` constructor at source line 110 raises for a year outside
1..9999.  The message string carried by the `ValueError` is not modelled. -/
inductive PathError where
  | invalidUsage (e : InvalidUsage)
  | valueError
deriving DecidableEq, Repr

/-- Model of the year range check of the `datetime.date` constructor:
`MINYEAR = 1`, `MAXYEAR = 9999`; any year outside this range makes `date`
raise `ValueError`. -/
def year_in_range (y : String) : Bool :=
  decide (1 ≤ pyInt y) && decide (pyInt y ≤ 9999)

/-- Model of `InnerPath.as_date` (source lines 107-114): for a truthy year
string, `date(int(year), month, day).strftime(%Y-%m-%d)`, with `%Y` rendered
without zero padding as glibc prints it and `%m` / `%d` with two digits; the
`date` constructor raises `ValueError` when the year is outside 1..9999 (the
month/day pairs passed by `assign_dates` are the always-valid 1/1 and 12/31,
so only the year check can fire).  For a falsy year, the year itself is
returned (absent stays absent). -/
def as_date (year : Option String) (month day : Nat) : Except PathError (Option String) :=
  if pyTruthy year then
    if year_in_range (year.getD "") then
      .ok (year.map (fun y => toString (pyInt y) ++ "-" ++ pad2 month ++ "-" ++ pad2 day))
    else .error .valueError
  else .ok year

/-- Model of `InnerPath.get_years` (source lines 116-129).  The source keeps
the all-digit tokens, and only under the guard `len(integers) in (1, 2)` pops
the first of them (and, when there are two, also the second) out of the
mutable token list; `List.erase` removes the first occurrence of a value
exactly as `tokens.pop(tokens.index(x))` does.  The result pairs the
(start, end) years with the remaining token list.  When the number of
all-digit tokens is zero or more than two, the guard fails and nothing is
extracted or consumed. -/
def get_years (tokens : List String) : (Option String × Option String) × List String :=
  match tokens.filter (fun x => isdigit x) with
  | [a] => ((some a, none), tokens.erase a)
  | [a, b] => ((some a, some b), (tokens.erase a).erase b)
  | _ => ((none, none), tokens)

/-- Model of `InnerPath.assign_dates` (source lines 100-105): render the years
found by `get_years` as first-of-January and last-of-December dates — the
start date first, as the source does, so its `ValueError` escapes first — and
pair them with the remaining token list. -/
def assign_dates (tokens : List String) :
    Except PathError ((Option String × Option String) × List String) :=
  match get_years tokens with
  | ((start_year, end_year), rest) =>
    match as_date start_year 1 1 with
    | .error e => .error e
    | .ok start_date =>
      match as_date end_year 12 31 with
      | .error e => .error e
      | .ok end_date => .ok ((start_date, end_date), rest)

/-- Model of `InnerPath.assign_values` (source lines 131-144):
`values_found = [p for p in allowed_values if p in tokens]` iterates over the
ALLOWED list, so a value occurring twice among the tokens is collected only
once.  No match leaves the field absent; a unique match is popped from the
token list and returned; two or more matches raise the ambiguity error
carrying `values_found`. -/
def assign_values (tokens : List String) (allowed_values : List String) :
    Except InvalidUsage (Option String × List String) :=
  match allowed_values.filter (fun p => decide (p ∈ tokens)) with
  | [] => .ok (none, tokens)
  | [x] => .ok (some x, tokens.erase x)
  | values_found => .error (.ambiguous values_found)

/-- The classified field mapping `InnerPath.dict`, in the order the source
fills it: dates, finaliser, rate, aggregator, unit. -/
structure Fields where
  start_date : Option String
  end_date : Option String
  fin : Option String
  rate : Option String
  agg : Option String
  unit : Option String
deriving DecidableEq, Repr

/-- Model of the body of `InnerPath.__init__` (source lines 82-95) on an
already tokenized list: assign the dates first (line 83, where an
out-of-range year raises `ValueError` before any later stage runs), then the
finaliser, rate and aggregator (each step passing the shrunken token list
on), reject a truthy rate together with a truthy aggregator, and finally
resolve the unit: the first remaining token if any remains, otherwise the
rate value if truthy, otherwise absent (`tokens[0]` versus
`self.dict[rate] or None`). -/
def classifyTokens (tokens : List String) : Except PathError Fields :=
  match assign_dates tokens with
  | .error e => .error e
  | .ok ((start_date, end_date), t1) =>
    match assign_values t1 ALLOWED_FINALISERS with
    | .error e => .error (.invalidUsage e)
    | .ok (fin, t2) =>
      match assign_values t2 ALLOWED_REAL_RATES with
      | .error e => .error (.invalidUsage e)
      | .ok (rate, t3) =>
        match assign_values t3 ALLOWED_AGGREGATORS with
        | .error e => .error (.invalidUsage e)
        | .ok (agg, t4) =>
          if pyTruthy rate && pyTruthy agg then .error (.invalidUsage .cannotCombine)
          else .ok ⟨start_date, end_date, fin, rate, agg,
            match t4 with
            | t :: _ => some t
            | [] => if pyTruthy rate then rate else none⟩

/-- Model of `InnerPath(inner_path).get_dict()`: tokenize the inner path and
classify the tokens. -/
def innerPath (inner_path : String) : Except PathError Fields :=
  classifyTokens (tokenize inner_path)

/-- Model of `CustomGET.make_freq` (source lines 166-170). -/
def make_freq (freq : String) : Except InvalidUsage String :=
  if ALLOWED_FREQUENCIES.contains freq then .ok freq
  else .error (.invalidFrequency freq)

/-- Model of `CustomGET.make_name` (source lines 172-177): a truthy unit is
appended to the variable name after an underscore. -/
def make_name (varname : String) (unit : Option String) : String :=
  if pyTruthy unit then varname ++ "_" ++ unit.getD "" else varname

/-- Model of `CustomGET.make_dates` (source lines 179-181): the dict
comprehension keeps `start_date` and `end_date` only when truthy; absent
fields contribute no key at all.  The mapping is modelled as an association
list in insertion order. -/
def make_dates (f : Fields) : List (String × String) :=
  (if pyTruthy f.start_date then [("start_date", f.start_date.getD "")] else []) ++
  (if pyTruthy f.end_date then [("end_date", f.end_date.getD "")] else [])

/-- Model of `CustomGET.__init__` (source lines 183-187): decompose the inner
path, then build the query parameters `name`, `freq` and the optional date
bounds.  The `domain` argument is accepted and ignored, as in the source. -/
def customGET_params (domain varname freq inner_path : String) :
    Except PathError (List (String × String)) :=
  match innerPath inner_path with
  | .error e => .error e
  | .ok f =>
    match make_freq freq with
    | .error e => .error (.invalidUsage e)
    | .ok fr => .ok (("name", make_name varname f.unit) :: ("freq", fr) :: make_dates f)

/-- A datapoint record as the remote store returns it:
`{date, freq, name, value}`.  The numeric `value` is carried as the decimal
string that `str(value)` prints, which is all the serialiser uses of it. -/
structure Datapoint where
  date : String
  freq : String
  name : String
  value : String
deriving DecidableEq, Repr

/-- Model of `yield_csv_row` (source lines 199-215): a header row built from
the name of the FIRST record, then one `date,value` row per record in input
order, then one empty string that yields the trailing newline.  (On the empty
list the Python generator would fail at `datapoints[0]`; `to_csv` never calls
it on one.) -/
def yield_csv_row (dicts : List Datapoint) : List String :=
  match dicts with
  | [] => []
  | d :: _ => ("," ++ d.name) :: (dicts.map (fun p => p.date ++ "," ++ p.value) ++ [""])

/-- Model of the Python `join` method with a newline separator, as `to_csv`
uses it. -/
def join_lines : List String → String
  | [] => ""
  | [r] => r
  | r :: s :: rest => r ++ "\n" ++ join_lines (s :: rest)

/-- Model of `to_csv` (source lines 217-222): an empty record list gives the
empty string, a non-empty one the newline-join of the generated rows. -/
def to_csv (dicts : List Datapoint) : String :=
  if dicts.isEmpty then "" else join_lines (yield_csv_row dicts)

/-- Plain concatenation of a list of strings.  Used to state, on the
specification side, the shape `header, then one row per record each followed
by a newline` of the CSV output. -/
def concat_rows : List String → String
  | [] => ""
  | s :: rest => s ++ concat_rows rest

/-- Projection of a classification outcome onto its finaliser, rate and
aggregator fields (errors pass through). -/
def finRateAggOf :
    Except PathError Fields → Except PathError (Option String × Option String × Option String)
  | .error e => .error e
  | .ok f => .ok (f.fin, f.rate, f.agg)

/-- True iff a classification outcome is a success. -/
def isOkB : Except PathError Fields → Bool
  | .ok _ => true
  | .error _ => false

/-- True iff a classification outcome is an ambiguity error. -/
def isAmbiguousErr : Except PathError Fields → Bool
  | .error (.invalidUsage (.ambiguous _)) => true
  | _ => false

/-- True iff a classification outcome is the ValueError escape from the date
constructor. -/
def isValueErrB : Except PathError Fields → Bool
  | .error .valueError => true
  | _ => false

/-- True iff an optional extracted year passes the date range check (an
absent year trivially does). -/
def opt_year_ok : Option String → Bool
  | none => true
  | some y => year_in_range y

deriving instance DecidableEq for Except

/-- Claim C9: the tokenizer splits on slashes, trims segments and drops empty
segments silently; but the `if token` filter runs BEFORE stripping, so a
whitespace-only segment survives the filter and is trimmed down to the empty
token, contradicting the claim (and the comment at source line 80) that the
token list holds only non-empty strings. -/
theorem c9_tokenizer_empty_token :
    tokenize "/a//b /" = ["a", "b"] ∧
    tokenize "a/ /b" = ["a", "", "b"] ∧ "" ∈ tokenize "a/ /b" := by decide

/-- Claim C5 is false on the code: with three all-digit tokens the guard
`len(integers) in (1, 2)` fails, so NO year is extracted and no token is
consumed — the first two digit tokens are not taken as start and end year. -/
theorem c5_counterexample :
    (["2015", "2016", "2017"].filter (fun x => isdigit x)).length = 3 ∧
    get_years ["2015", "2016", "2017"] = ((none, none), ["2015", "2016", "2017"]) ∧
    (get_years ["2015", "2016", "2017"]).1 ≠ (some "2015", some "2016") := by decide

/-- Claim C5 (amended): for every token sequence containing more than two
all-digit tokens, year extraction silently extracts nothing — both year
fields are absent and the token sequence is left untouched. -/
theorem c5_more_than_two_years_extracts_nothing (tokens : List String)
    (h : 2 < (tokens.filter (fun x => isdigit x)).length) :
    get_years tokens = ((none, none), tokens) := by
  unfold get_years
  rcases hf : tokens.filter (fun x => isdigit x) with _ | ⟨a, _ | ⟨b, _ | ⟨c, t⟩⟩⟩
  · rfl
  · rw [hf] at h; simp at h
  · rw [hf] at h; simp at h
  · rfl

/-- Witness for the amended claim C5 at a concrete input. -/
theorem c5_witness :
    get_years ["1999", "2000", "2001", "x"] = ((none, none), ["1999", "2000", "2001", "x"]) :=
  c5_more_than_two_years_extracts_nothing ["1999", "2000", "2001", "x"] (by decide)

/-- Claim C1 is false on the code: the two inner paths below are
token-permutations of one another, yet they decompose to different mappings —
the year encountered first always becomes the start year, so permuting the
two year tokens swaps the start and end dates. -/
theorem c1_counterexample :
    (tokenize "2017/2015").Perm (tokenize "2015/2017") ∧
    innerPath "2015/2017" =
      .ok ⟨some "2015-01-01", some "2017-12-31", none, none, none, none⟩ ∧
    innerPath "2017/2015" =
      .ok ⟨some "2017-01-01", some "2015-12-31", none, none, none, none⟩ ∧
    innerPath "2015/2017" ≠ innerPath "2017/2015" := by decide

/-- Claim C2 is false on the code as a universal statement: this token
sequence contains a rate token (`rog`) and an aggregator token (`eop`), yet
decomposition fails with the AMBIGUITY error over the two distinct rate
tokens, which is raised before the mutual-exclusion check is reached. -/
theorem c2_counterexample :
    "rog" ∈ ALLOWED_REAL_RATES ∧ "eop" ∈ ALLOWED_AGGREGATORS ∧
    "rog" ∈ ["rog", "yoy", "eop"] ∧ "eop" ∈ ["rog", "yoy", "eop"] ∧
    classifyTokens ["rog", "yoy", "eop"] =
      .error (.invalidUsage (.ambiguous ["rog", "yoy"])) ∧
    classifyTokens ["rog", "yoy", "eop"] ≠ .error (.invalidUsage .cannotCombine) := by decide

/-- Claim C3 is false on the code for two EQUAL tokens of the same allowed
set: `values_found` is collected by iterating over the allowed list, so a
duplicated token is found once only — classification succeeds, one copy is
consumed and the other is left behind (here it even becomes the unit). -/
theorem c3_counterexample :
    "csv" ∈ ALLOWED_FINALISERS ∧
    assign_values ["csv", "csv"] ALLOWED_FINALISERS = .ok (some "csv", ["csv"]) ∧
    classifyTokens ["csv", "csv"] =
      .ok ⟨none, none, some "csv", none, none, some "csv"⟩ := by decide

/-- Claim C6: unit resolution.  When the year stage (date assignment
included), the finaliser, rate and aggregator stages succeed and leave the
token list `t4`, and the mutual-exclusion test passes, classification
succeeds and the unit is the first remaining token if any token remains; with
no remaining token it falls back to the rate value when that is truthy and is
absent otherwise. -/
theorem c6_unit_resolution (tokens t1 t2 t3 t4 : List String)
    (start_date end_date fin rate agg : Option String)
    (hdates : assign_dates tokens = .ok ((start_date, end_date), t1))
    (hfin : assign_values t1 ALLOWED_FINALISERS = .ok (fin, t2))
    (hrate : assign_values t2 ALLOWED_REAL_RATES = .ok (rate, t3))
    (hagg : assign_values t3 ALLOWED_AGGREGATORS = .ok (agg, t4))
    (hexcl : (pyTruthy rate && pyTruthy agg) = false) :
    classifyTokens tokens = .ok ⟨start_date, end_date, fin, rate, agg,
      match t4 with
      | t :: _ => some t
      | [] => if pyTruthy rate then rate else none⟩ := by
  unfold classifyTokens
  simp only [hdates, hfin, hrate, hagg, hexcl]
  cases t4 <;> rfl

/-- Witness for claim C6 at a concrete input exercising the rate fallback: a
bare rate token is consumed by the rate stage, nothing remains, and the unit
resolves to the rate value. -/
theorem c6_witness :
    classifyTokens ["rog"] = .ok ⟨none, none, none, some "rog", none, some "rog"⟩ :=
  c6_unit_resolution ["rog"] ["rog"] ["rog"] [] [] none none none (some "rog") none
    rfl rfl rfl rfl rfl

/-- A truthy optional string holds a non-empty value. -/
lemma truthy_getD_ne {o : Option String} (h : pyTruthy o = true) : o.getD "" ≠ "" := by
  rcases o with _ | s
  · simp [pyTruthy] at h
  · simpa [pyTruthy] using h

/-- Joining a header, body rows and a final empty string with newlines equals
the header followed by the newline-terminated body rows. -/
lemma join_lines_header (x : String) (rows : List String) :
    join_lines (x :: (rows ++ [""])) = x ++ "\n" ++ concat_rows (rows.map (fun r => r ++ "\n")) := by
  induction rows generalizing x with
  | nil => rfl
  | cons r rs ih =>
    show join_lines (x :: r :: (rs ++ [""])) = _
    rw [show join_lines (x :: r :: (rs ++ [""])) = x ++ "\n" ++ join_lines (r :: (rs ++ [""])) from rfl,
      ih r]
    simp [concat_rows]

/-- Claim C8: serialization.  The empty record list gives the empty string
with no header; a non-empty list of same-name records gives the header row
`,name` followed by one `date,value` row per record in input order, all
newline-terminated; and the two USDRUR_CB records of scenario 5 serialize to
the expected text. -/
theorem c8_serialization :
    to_csv [] = "" ∧
    (∀ (l : List Datapoint) (nm : String), l ≠ [] → (∀ d ∈ l, d.name = nm) →
      to_csv l = "," ++ nm ++ "\n" ++
        concat_rows (l.map (fun d => d.date ++ "," ++ d.value ++ "\n"))) ∧
    to_csv [⟨"1992-07-01", "d", "USDRUR_CB", "0.1253"⟩,
            ⟨"2017-09-28", "d", "USDRUR_CB", "58.0102"⟩] =
      ",USDRUR_CB\n1992-07-01,0.1253\n2017-09-28,58.0102\n" := by
  refine ⟨rfl, ?_, by decide⟩
  intro l nm hne hname
  rcases l with _ | ⟨d, rest⟩
  · exact absurd rfl hne
  · have hd : d.name = nm := hname d (List.mem_cons_self d rest)
    show join_lines (("," ++ d.name) ::
      ((d :: rest).map (fun p => p.date ++ "," ++ p.value) ++ [""])) = _
    rw [join_lines_header, hd, List.map_map]
    rfl

/-- Witness for claim C8 at a concrete two-record input. -/
theorem c8_witness :
    to_csv [⟨"2000-01-01", "m", "AAA", "1.5"⟩, ⟨"2000-02-01", "m", "AAA", "2.5"⟩] =
      ",AAA\n2000-01-01,1.5\n2000-02-01,2.5\n" := by
  have h := c8_serialization.2.1
    [⟨"2000-01-01", "m", "AAA", "1.5"⟩, ⟨"2000-02-01", "m", "AAA", "2.5"⟩] "AAA"
    (by decide) (by decide)
  rw [h]; decide

/-- Claim C10: the serializer takes the header name from the first record
only.  For every non-empty record list — the records being free to carry
differing names — serialization succeeds, the header row uses the name of the
first record, and each data row uses the date and value of its own record;
the concrete instance mixes two names and keeps the first in the header. -/
theorem c10_header_from_first_record :
    (∀ (d : Datapoint) (rest : List Datapoint),
      to_csv (d :: rest) = "," ++ d.name ++ "\n" ++
        concat_rows ((d :: rest).map (fun p => p.date ++ "," ++ p.value ++ "\n"))) ∧
    to_csv [⟨"2001-01-01", "d", "AAA", "1.5"⟩, ⟨"2002-02-02", "d", "BBB", "2.5"⟩] =
      ",AAA\n2001-01-01,1.5\n2002-02-02,2.5\n" := by
  constructor
  · intro d rest
    show join_lines (("," ++ d.name) ::
      ((d :: rest).map (fun p => p.date ++ "," ++ p.value) ++ [""])) = _
    rw [join_lines_header, List.map_map]
    rfl
  · decide

/-- Claim C7: parameter building.  Whenever the inner path decomposes to a
field mapping and the frequency is accepted, the parameter mapping starts
with the composite name — `varname_unit` for a truthy unit, bare `varname`
otherwise — then the frequency, then the date bounds each included exactly
when truthy; every date entry carries one of the two date keys and never an
empty value; and decomposing `bln_rub` for EXPORT_GOODS at monthly frequency
yields exactly the two-entry mapping of scenario 2. -/
theorem c7_parameter_building :
    (∀ (domain varname freq p : String) (f : Fields) (fr : String),
      innerPath p = .ok f → make_freq freq = .ok fr →
      customGET_params domain varname freq p = .ok
        (("name", if pyTruthy f.unit then varname ++ "_" ++ f.unit.getD "" else varname) ::
         ("freq", fr) ::
         ((if pyTruthy f.start_date then [("start_date", f.start_date.getD "")] else []) ++
          (if pyTruthy f.end_date then [("end_date", f.end_date.getD "")] else [])))) ∧
    (∀ (f : Fields) (kv : String × String), kv ∈ make_dates f →
      (kv.1 = "start_date" ∨ kv.1 = "end_date") ∧ kv.2 ≠ "") ∧
    customGET_params "ru" "EXPORT_GOODS" "m" "bln_rub" =
      .ok [("name", "EXPORT_GOODS_bln_rub"), ("freq", "m")] := by
  refine ⟨?_, ?_, by decide⟩
  · intro domain varname freq p f fr h1 h2
    unfold customGET_params
    simp only [h1, h2]
    rfl
  · intro f kv hkv
    unfold make_dates at hkv
    rcases List.mem_append.mp hkv with h | h
    · by_cases hs : pyTruthy f.start_date = true
      · rw [if_pos hs] at h
        simp only [List.mem_singleton] at h
        subst h
        exact ⟨Or.inl rfl, truthy_getD_ne hs⟩
      · rw [if_neg hs] at h
        simp at h
    · by_cases he : pyTruthy f.end_date = true
      · rw [if_pos he] at h
        simp only [List.mem_singleton] at h
        subst h
        exact ⟨Or.inr rfl, truthy_getD_ne he⟩
      · rw [if_neg he] at h
        simp at h

/-- Witness for claim C7 at the BRENT sample path, exercising both date
entries. -/
theorem c7_witness :
    customGET_params "oil" "BRENT" "m" "eop/2015/2017/csv" =
      .ok [("name", "BRENT"), ("freq", "m"),
           ("start_date", "2015-01-01"), ("end_date", "2017-12-31")] := by
  have h := c7_parameter_building.1 "oil" "BRENT" "m" "eop/2015/2017/csv"
    ⟨some "2015-01-01", some "2017-12-31", some "csv", none, some "eop", none⟩ "m"
    (by decide) (by decide)
  rw [h]; decide

/-- A decimal digit character has code point at most 57. -/
lemma digit_toNat_le {c : Char} (h : c.isDigit = true) : c.toNat ≤ 57 := by
  simp [Char.isDigit] at h
  exact h.2

/-- The numeric value of a four-character digit string is at most 9999. -/
lemma pyInt_le_of_len_four {y : String} (hd : isdigit y = true) (hlen : y.length = 4) :
    pyInt y ≤ 9999 := by
  rcases y with ⟨l⟩
  have hlen' : l.length = 4 := hlen
  rcases l with _ | ⟨c1, _ | ⟨c2, _ | ⟨c3, _ | ⟨c4, _ | ⟨c5, t⟩⟩⟩⟩⟩ <;> simp at hlen'
  simp [isdigit] at hd
  obtain ⟨h1, h2, h3, h4⟩ := hd.2
  have b1 := digit_toNat_le h1
  have b2 := digit_toNat_le h2
  have b3 := digit_toNat_le h3
  have b4 := digit_toNat_le h4
  show ((((0 * 10 + (c1.toNat - 48)) * 10 + (c2.toNat - 48)) * 10 + (c3.toNat - 48)) * 10
    + (c4.toNat - 48)) ≤ 9999
  omega

/-- A canonical four-digit token denotes a year inside the range the
`datetime.date` constructor accepts. -/
lemma year_in_range_of_canonical {y : String} (hd : isdigit y = true)
    (hcanon : toString (pyInt y) = y) (hlen : y.length = 4) :
    year_in_range y = true := by
  have hub : pyInt y ≤ 9999 := pyInt_le_of_len_four hd hlen
  have hlb : 1 ≤ pyInt y := by
    by_contra hc
    have h0 : pyInt y = 0 := by omega
    rw [h0] at hcanon
    rw [← hcanon] at hlen
    exact absurd hlen (by decide)
  unfold year_in_range
  simp [hub, hlb]

/-- A truthy in-range year renders through `as_date` without error. -/
lemma as_date_ok_of_range {y : String} (hne : y ≠ "") (hr : year_in_range y = true)
    (m d : Nat) :
    as_date (some y) m d = .ok (some (toString (pyInt y) ++ "-" ++ pad2 m ++ "-" ++ pad2 d)) := by
  unfold as_date
  rw [if_pos (show pyTruthy (some y) = true by simpa [pyTruthy] using hne)]
  simp only [Option.getD_some]
  rw [if_pos hr]
  rfl

/-- A truthy out-of-range year makes `as_date` raise the ValueError. -/
lemma as_date_err_of_range {y : String} (hne : y ≠ "") (hr : year_in_range y = false)
    (m d : Nat) :
    as_date (some y) m d = .error .valueError := by
  unfold as_date
  rw [if_pos (show pyTruthy (some y) = true by simpa [pyTruthy] using hne),
    if_neg (show ¬ year_in_range ((some y : Option String).getD "") = true by simp [hr])]

/-- A canonical in-range start year renders as the first of January. -/
lemma as_date_start (y : String) (hne : y ≠ "") (hcanon : toString (pyInt y) = y)
    (hr : year_in_range y = true) :
    as_date (some y) 1 1 = .ok (some (y ++ "-01-01")) := by
  rw [as_date_ok_of_range hne hr 1 1, hcanon]
  simp only [String.append_assoc]
  exact congrArg (fun t => Except.ok (some (y ++ t))) (by decide)

/-- A canonical in-range end year renders as the last of December. -/
lemma as_date_end (y : String) (hne : y ≠ "") (hcanon : toString (pyInt y) = y)
    (hr : year_in_range y = true) :
    as_date (some y) 12 31 = .ok (some (y ++ "-12-31")) := by
  rw [as_date_ok_of_range hne hr 12 31, hcanon]
  simp only [String.append_assoc]
  exact congrArg (fun t => Except.ok (some (y ++ t))) (by decide)

/-- Claim C4: year extraction.  Over a token sequence whose all-digit tokens
are four-digit years written canonically (no leading zero, as the `YYYY` of
the claim denotes): zero digit tokens leave both date fields absent and the
sequence untouched; one digit token becomes the start year with the end date
absent; two digit tokens become, in original order, the start and the end
year; the start year renders as `YYYY-01-01`, the end year as `YYYY-12-31`;
and the consumed year tokens are removed from the sequence. -/
theorem c4_year_extraction (tokens : List String)
    (hy : ∀ t ∈ tokens, isdigit t = true → toString (pyInt t) = t ∧ t.length = 4) :
    match tokens.filter (fun x => isdigit x) with
    | [] => assign_dates tokens = .ok ((none, none), tokens)
    | [a] => assign_dates tokens = .ok ((some (a ++ "-01-01"), none), tokens.erase a)
    | [a, b] => assign_dates tokens =
        .ok ((some (a ++ "-01-01"), some (b ++ "-12-31")), (tokens.erase a).erase b)
    | _ => True := by
  rcases hf : tokens.filter (fun x => isdigit x) with _ | ⟨a, _ | ⟨b, _ | ⟨c, t⟩⟩⟩
  · unfold assign_dates get_years
    simp only [hf]
    rfl
  · have ha : a ∈ tokens.filter (fun x => isdigit x) := by
      rw [hf]; exact List.mem_cons_self a []
    have had : isdigit a = true := (List.mem_filter.mp ha).2
    have hat : a ∈ tokens := (List.mem_filter.mp ha).1
    have hane : a ≠ "" := by
      intro h; rw [h] at had; exact absurd had (by decide)
    have hra : year_in_range a = true :=
      year_in_range_of_canonical had (hy a hat had).1 (hy a hat had).2
    unfold assign_dates get_years
    simp only [hf]
    rw [as_date_start a hane (hy a hat had).1 hra]
    rfl
  · have ha : a ∈ tokens.filter (fun x => isdigit x) := by
      rw [hf]; exact List.mem_cons_self a [b]
    have hb : b ∈ tokens.filter (fun x => isdigit x) := by
      rw [hf]; exact List.mem_cons_of_mem a (List.mem_cons_self b [])
    have had : isdigit a = true := (List.mem_filter.mp ha).2
    have hbd : isdigit b = true := (List.mem_filter.mp hb).2
    have hat : a ∈ tokens := (List.mem_filter.mp ha).1
    have hbt : b ∈ tokens := (List.mem_filter.mp hb).1
    have hane : a ≠ "" := by
      intro h; rw [h] at had; exact absurd had (by decide)
    have hbne : b ≠ "" := by
      intro h; rw [h] at hbd; exact absurd hbd (by decide)
    have hra : year_in_range a = true :=
      year_in_range_of_canonical had (hy a hat had).1 (hy a hat had).2
    have hrb : year_in_range b = true :=
      year_in_range_of_canonical hbd (hy b hbt hbd).1 (hy b hbt hbd).2
    unfold assign_dates get_years
    simp only [hf]
    rw [as_date_start a hane (hy a hat had).1 hra, as_date_end b hbne (hy b hbt hbd).1 hrb]
  · trivial

/-- Witness for claim C4 at a concrete input with two year tokens. -/
theorem c4_witness :
    assign_dates ["2015", "eop", "2017", "csv"] =
      .ok ((some "2015-01-01", some "2017-12-31"), ["eop", "csv"]) :=
  c4_year_extraction ["2015", "eop", "2017", "csv"] (by decide)

/-- The only error `assign_values` can raise is the ambiguity error. -/
lemma assign_values_error_shape {tokens allowed : List String} {e : InvalidUsage}
    (h : assign_values tokens allowed = .error e) : ∃ vs, e = .ambiguous vs := by
  unfold assign_values at h
  rcases hvf : allowed.filter (fun p => decide (p ∈ tokens)) with _ | ⟨x, _ | ⟨y, t⟩⟩ <;>
    rw [hvf] at h
  · simp at h
  · simp at h
  · refine ⟨x :: y :: t, ?_⟩
    injection h with h2
    exact h2.symm

/-- A successful `assign_values` either found nothing and left the tokens
alone, or found one allowed value present among the tokens and erased its
first occurrence. -/
lemma assign_values_ok_cases {tokens allowed t' : List String} {v : Option String}
    (h : assign_values tokens allowed = .ok (v, t')) :
    (v = none ∧ t' = tokens) ∨
    (∃ x, v = some x ∧ x ∈ allowed ∧ x ∈ tokens ∧ t' = tokens.erase x) := by
  unfold assign_values at h
  rcases hvf : allowed.filter (fun p => decide (p ∈ tokens)) with _ | ⟨x, _ | ⟨y, t⟩⟩ <;>
    rw [hvf] at h
  · left
    injection h with h2
    injection h2 with ha hb
    exact ⟨ha.symm, hb.symm⟩
  · right
    have hx : x ∈ allowed.filter (fun p => decide (p ∈ tokens)) := by
      rw [hvf]; exact List.mem_cons_self x []
    injection h with h2
    injection h2 with ha hb
    exact ⟨x, ha.symm, (List.mem_filter.mp hx).1,
      by simpa using (List.mem_filter.mp hx).2, hb.symm⟩
  · simp at h

/-- A token outside the allowed set survives a successful `assign_values`. -/
lemma mem_assign_values_rest {tokens allowed t' : List String} {v : Option String}
    (h : assign_values tokens allowed = .ok (v, t')) {r : String}
    (hr : r ∈ tokens) (hna : r ∉ allowed) : r ∈ t' := by
  rcases assign_values_ok_cases h with ⟨_, rfl⟩ | ⟨x, _, hxa, _, rfl⟩
  · exact hr
  · exact (List.mem_erase_of_ne (fun he => hna (by rw [he]; exact hxa))).mpr hr

/-- When some allowed value is present among the tokens, a successful
`assign_values` must have found one. -/
lemma assign_values_found_some {tokens allowed t' : List String} {v : Option String}
    (h : assign_values tokens allowed = .ok (v, t')) {r : String}
    (hra : r ∈ allowed) (hrt : r ∈ tokens) : ∃ x, v = some x ∧ x ∈ allowed := by
  have hrf : r ∈ allowed.filter (fun p => decide (p ∈ tokens)) :=
    List.mem_filter.mpr ⟨hra, by simpa using hrt⟩
  unfold assign_values at h
  rcases hvf : allowed.filter (fun p => decide (p ∈ tokens)) with _ | ⟨x, _ | ⟨y, t⟩⟩ <;>
    rw [hvf] at h hrf
  · simp at hrf
  · have hx : x ∈ allowed.filter (fun p => decide (p ∈ tokens)) := by
      rw [hvf]; exact List.mem_cons_self x []
    injection h with h2
    injection h2 with ha _
    exact ⟨x, ha.symm, (List.mem_filter.mp hx).1⟩
  · simp at h

/-- A non-digit token survives year extraction. -/
lemma mem_get_years_rest {tokens t1 : List String} {sy ey : Option String}
    (hg : get_years tokens = ((sy, ey), t1)) {r : String}
    (hr : r ∈ tokens) (hd : isdigit r = false) : r ∈ t1 := by
  have key : r ∈ (get_years tokens).2 := by
    unfold get_years
    rcases hvf : tokens.filter (fun x => isdigit x) with _ | ⟨a, _ | ⟨b, _ | ⟨c, t0⟩⟩⟩
    · exact hr
    · have ha : a ∈ tokens.filter (fun x => isdigit x) := by
        rw [hvf]; exact List.mem_cons_self a []
      have hne : r ≠ a := fun he => by
        rw [he, (List.mem_filter.mp ha).2] at hd; exact absurd hd (by decide)
      exact (List.mem_erase_of_ne hne).mpr hr
    · have ha : a ∈ tokens.filter (fun x => isdigit x) := by
        rw [hvf]; exact List.mem_cons_self a [b]
      have hb : b ∈ tokens.filter (fun x => isdigit x) := by
        rw [hvf]; exact List.mem_cons_of_mem a (List.mem_cons_self b [])
      have hnea : r ≠ a := fun he => by
        rw [he, (List.mem_filter.mp ha).2] at hd; exact absurd hd (by decide)
      have hneb : r ≠ b := fun he => by
        rw [he, (List.mem_filter.mp hb).2] at hd; exact absurd hd (by decide)
      exact (List.mem_erase_of_ne hneb).mpr ((List.mem_erase_of_ne hnea).mpr hr)
    · exact hr
  rw [hg] at key
  exact key

/-- Rate tokens are not digit strings. -/
lemma rate_not_digit {x : String} (hx : x ∈ ALLOWED_REAL_RATES) : isdigit x = false := by
  fin_cases hx <;> decide

/-- Aggregator tokens are not digit strings. -/
lemma agg_not_digit {x : String} (hx : x ∈ ALLOWED_AGGREGATORS) : isdigit x = false := by
  fin_cases hx <;> decide

/-- Rate tokens are not finalisers. -/
lemma rate_not_fin {x : String} (hx : x ∈ ALLOWED_REAL_RATES) : x ∉ ALLOWED_FINALISERS := by
  fin_cases hx <;> decide

/-- Aggregator tokens are not finalisers. -/
lemma agg_not_fin {x : String} (hx : x ∈ ALLOWED_AGGREGATORS) : x ∉ ALLOWED_FINALISERS := by
  fin_cases hx <;> decide

/-- Aggregator tokens are not rates. -/
lemma agg_not_rate {x : String} (hx : x ∈ ALLOWED_AGGREGATORS) : x ∉ ALLOWED_REAL_RATES := by
  fin_cases hx <;> decide

/-- Rate tokens are truthy. -/
lemma rate_truthy {x : String} (hx : x ∈ ALLOWED_REAL_RATES) : pyTruthy (some x) = true := by
  fin_cases hx <;> decide

/-- Aggregator tokens are truthy. -/
lemma agg_truthy {x : String} (hx : x ∈ ALLOWED_AGGREGATORS) : pyTruthy (some x) = true := by
  fin_cases hx <;> decide

/-- Claim C3 (amended): two DISTINCT tokens of the same fixed allowed set make
the extraction step for that set fail with the ambiguity error carrying the
list of conflicting values found (listed in the order of the allowed set);
consequently the concrete sequence with the two distinct finalisers `csv` and
`json` fails with the ambiguity error naming both.  (Two EQUAL tokens of one
set raise no error: only one copy is consumed — see the counterexample.) -/
theorem c3_distinct_ambiguity :
    (∀ (tokens allowed_values : List String) (x y : String),
      x ∈ allowed_values → y ∈ allowed_values → x ≠ y → x ∈ tokens → y ∈ tokens →
      2 ≤ (allowed_values.filter (fun p => decide (p ∈ tokens))).length ∧
      assign_values tokens allowed_values =
        .error (.ambiguous (allowed_values.filter (fun p => decide (p ∈ tokens))))) ∧
    classifyTokens ["csv", "json", "2015"] =
      .error (.invalidUsage (.ambiguous ["csv", "json"])) := by
  refine ⟨?_, by decide⟩
  intro tokens allowed x y hxa hya hxy hxt hyt
  have hxf : x ∈ allowed.filter (fun p => decide (p ∈ tokens)) :=
    List.mem_filter.mpr ⟨hxa, by simpa using hxt⟩
  have hyf : y ∈ allowed.filter (fun p => decide (p ∈ tokens)) :=
    List.mem_filter.mpr ⟨hya, by simpa using hyt⟩
  rcases hvf : allowed.filter (fun p => decide (p ∈ tokens)) with _ | ⟨z, _ | ⟨w, t⟩⟩
  · rw [hvf] at hxf; simp at hxf
  · rw [hvf] at hxf hyf
    simp only [List.mem_singleton] at hxf hyf
    exact absurd (hxf.trans hyf.symm) hxy
  · constructor
    · simp only [List.length_cons]; omega
    · unfold assign_values
      rw [hvf]

/-- Witness for the amended claim C3 at a concrete input with the two
distinct aggregators present. -/
theorem c3_witness :
    2 ≤ (ALLOWED_AGGREGATORS.filter (fun p => decide (p ∈ ["eop", "x", "avg"]))).length ∧
    assign_values ["eop", "x", "avg"] ALLOWED_AGGREGATORS =
      .error (.ambiguous (ALLOWED_AGGREGATORS.filter
        (fun p => decide (p ∈ ["eop", "x", "avg"])))) :=
  c3_distinct_ambiguity.1 ["eop", "x", "avg"] ALLOWED_AGGREGATORS "eop" "avg"
    (by decide) (by decide) (by decide) (by decide) (by decide)

/-- The only error `as_date` can raise is the ValueError. -/
lemma as_date_error_shape {year : Option String} {m d : Nat} {e : PathError}
    (h : as_date year m d = .error e) : e = .valueError := by
  unfold as_date at h
  by_cases h1 : pyTruthy year = true
  · rw [if_pos h1] at h
    by_cases h2 : year_in_range (year.getD "") = true
    · rw [if_pos h2] at h; simp at h
    · rw [if_neg h2] at h
      injection h with h3
      exact h3.symm
  · rw [if_neg h1] at h; simp at h

/-- The only error `assign_dates` can raise is the ValueError. -/
lemma assign_dates_error_shape {tokens : List String} {e : PathError}
    (h : assign_dates tokens = .error e) : e = .valueError := by
  unfold assign_dates at h
  rcases hg : get_years tokens with ⟨⟨sy, ey⟩, rest⟩
  simp only [hg] at h
  rcases h1 : as_date sy 1 1 with e1 | sd <;> simp only [h1] at h
  · injection h with h2
    rw [← h2]
    exact as_date_error_shape h1
  · rcases h2 : as_date ey 12 31 with e2 | ed <;> simp only [h2] at h
    · injection h with h3
      rw [← h3]
      exact as_date_error_shape h2
    · simp at h

/-- A successful `assign_dates` leaves exactly the tokens `get_years`
leaves. -/
lemma assign_dates_ok_rest {tokens t1 : List String} {sd ed : Option String}
    (h : assign_dates tokens = .ok ((sd, ed), t1)) :
    ∃ sy ey, get_years tokens = ((sy, ey), t1) := by
  unfold assign_dates at h
  rcases hg : get_years tokens with ⟨⟨sy, ey⟩, rest⟩
  simp only [hg] at h
  rcases h1 : as_date sy 1 1 with e1 | sd' <;> simp only [h1] at h
  · simp at h
  · rcases h2 : as_date ey 12 31 with e2 | ed' <;> simp only [h2] at h
    · simp at h
    · refine ⟨sy, ey, ?_⟩
      injection h with h3
      injection h3 with h4 h5
      rw [h5]

/-- Claim C2 (amended): a token sequence containing both a rate token and an
aggregator token never decomposes successfully; the failure is the
incompatible-transform error whenever neither an ambiguity error at an
earlier extraction step nor the ValueError from an out-of-range extracted
year fires first; in particular `eop/rog/2015/2018/csv` raises the
incompatible-transform error, while `rog/eop/99999` raises the ValueError. -/
theorem c2_rate_agg_failure :
    (∀ (tokens : List String) (r a : String),
      r ∈ ALLOWED_REAL_RATES → a ∈ ALLOWED_AGGREGATORS → r ∈ tokens → a ∈ tokens →
      isOkB (classifyTokens tokens) = false ∧
      (isAmbiguousErr (classifyTokens tokens) = false →
       isValueErrB (classifyTokens tokens) = false →
        classifyTokens tokens = .error (.invalidUsage .cannotCombine))) ∧
    innerPath "eop/rog/2015/2018/csv" = .error (.invalidUsage .cannotCombine) ∧
    innerPath "rog/eop/99999" = .error .valueError := by
  refine ⟨?_, by decide, by decide⟩
  intro tokens r a hrR haA hrt hat
  rcases hd : assign_dates tokens with e | ⟨⟨sd, ed⟩, t1⟩
  · have he := assign_dates_error_shape hd
    subst he
    unfold classifyTokens
    simp only [hd]
    exact ⟨rfl, fun _ hv => absurd hv (by decide)⟩
  · obtain ⟨sy, ey, hg⟩ := assign_dates_ok_rest hd
    have hrt1 : r ∈ t1 := mem_get_years_rest hg hrt (rate_not_digit hrR)
    have hat1 : a ∈ t1 := mem_get_years_rest hg hat (agg_not_digit haA)
    rcases hfin : assign_values t1 ALLOWED_FINALISERS with e | ⟨fin, t2⟩
    · obtain ⟨vs, rfl⟩ := assign_values_error_shape hfin
      unfold classifyTokens
      simp only [hd, hfin]
      exact ⟨rfl, fun hcontra _ => by simp [isAmbiguousErr] at hcontra⟩
    · have hrt2 : r ∈ t2 := mem_assign_values_rest hfin hrt1 (rate_not_fin hrR)
      have hat2 : a ∈ t2 := mem_assign_values_rest hfin hat1 (agg_not_fin haA)
      rcases hrate : assign_values t2 ALLOWED_REAL_RATES with e | ⟨rate, t3⟩
      · obtain ⟨vs, rfl⟩ := assign_values_error_shape hrate
        unfold classifyTokens
        simp only [hd, hfin, hrate]
        exact ⟨rfl, fun hcontra _ => by simp [isAmbiguousErr] at hcontra⟩
      · obtain ⟨x, rfl, hxR⟩ := assign_values_found_some hrate hrR hrt2
        have hat3 : a ∈ t3 := mem_assign_values_rest hrate hat2 (agg_not_rate haA)
        rcases hagg : assign_values t3 ALLOWED_AGGREGATORS with e | ⟨agg, t4⟩
        · obtain ⟨vs, rfl⟩ := assign_values_error_shape hagg
          unfold classifyTokens
          simp only [hd, hfin, hrate, hagg]
          exact ⟨rfl, fun hcontra _ => by simp [isAmbiguousErr] at hcontra⟩
        · obtain ⟨y, rfl, hyA⟩ := assign_values_found_some hagg haA hat3
          have hcond : (pyTruthy (some x) && pyTruthy (some y)) = true := by
            rw [rate_truthy hxR, agg_truthy hyA]; rfl
          unfold classifyTokens
          simp only [hd, hfin, hrate, hagg, hcond]
          exact ⟨rfl, fun _ _ => rfl⟩

/-- Witness for the amended claim C2 at a concrete input holding one rate and
one aggregator token. -/
theorem c2_witness :
    isOkB (classifyTokens ["rog", "avg", "usd"]) = false :=
  (c2_rate_agg_failure.1 ["rog", "avg", "usd"] "rog" "avg"
    (by decide) (by decide) (by decide) (by decide)).1

/-- A permutation between two-element lists either preserves or swaps the
elements. -/
lemma perm_pair {α : Type} [DecidableEq α] {a b x y : α} (h : List.Perm [a, b] [x, y]) :
    (a = x ∧ b = y) ∨ (a = y ∧ b = x) := by
  have ha : a ∈ [x, y] := h.mem_iff.mp (List.mem_cons_self a [b])
  rcases List.mem_cons.mp ha with rfl | ha'
  · left
    have h2 := List.perm_singleton.mp h.cons_inv
    injection h2 with h3
    exact ⟨rfl, h3⟩
  · have hay : a = y := by simpa using ha'
    subst hay
    right
    have h2 : List.Perm [a, b] [a, x] := h.trans (List.Perm.swap a x [])
    have h3 := List.perm_singleton.mp h2.cons_inv
    injection h3 with h4
    exact ⟨rfl, h4⟩

/-- Year extraction sends permuted token lists to permuted remainders (the
extracted years themselves may differ in order, which is exactly what the C1
counterexample exhibits). -/
lemma get_years_rest_perm {l l' : List String} (h : l.Perm l') :
    ((get_years l).2).Perm ((get_years l').2) := by
  have hf : (l.filter (fun x => isdigit x)).Perm (l'.filter (fun x => isdigit x)) :=
    h.filter _
  unfold get_years
  rcases hvf : l.filter (fun x => isdigit x) with _ | ⟨a, _ | ⟨b, _ | ⟨c, t0⟩⟩⟩ <;>
    rw [hvf] at hf
  · rw [List.Perm.eq_nil hf.symm]
    exact h
  · rw [List.perm_singleton.mp hf.symm]
    exact h.erase a
  · rcases hvf' : l'.filter (fun x => isdigit x) with _ | ⟨x, _ | ⟨y, _ | ⟨z, t1⟩⟩⟩ <;>
      rw [hvf'] at hf
    · have hl := hf.length_eq; simp at hl
    · have hl := hf.length_eq; simp at hl
    · rcases perm_pair hf with ⟨rfl, rfl⟩ | ⟨rfl, rfl⟩
      · exact (h.erase a).erase b
      · show ((l.erase a).erase b).Perm ((l'.erase b).erase a)
        rw [List.erase_comm b a l']
        exact (h.erase a).erase b
    · have hl := hf.length_eq; simp at hl
  · rcases hvf' : l'.filter (fun x => isdigit x) with _ | ⟨x, _ | ⟨y, _ | ⟨z, t1⟩⟩⟩ <;>
      rw [hvf'] at hf
    · have hl := hf.length_eq; simp at hl
    · have hl := hf.length_eq; simp at hl
    · have hl := hf.length_eq; simp at hl
    · exact h

/-- Year extraction sends permuted token lists to the same pair of years, up
to swapping start and end. -/
lemma get_years_vals_perm {l l' : List String} (h : l.Perm l')
    {sy ey sy' ey' : Option String} {t1 t1' : List String}
    (hg : get_years l = ((sy, ey), t1)) (hg' : get_years l' = ((sy', ey'), t1')) :
    (sy = sy' ∧ ey = ey') ∨ (sy = ey' ∧ ey = sy') := by
  have hf : (l.filter (fun x => isdigit x)).Perm (l'.filter (fun x => isdigit x)) :=
    h.filter _
  unfold get_years at hg hg'
  rcases hvf : l.filter (fun x => isdigit x) with _ | ⟨a, _ | ⟨b, _ | ⟨c, t0⟩⟩⟩ <;>
    rw [hvf] at hf hg
  · rw [List.Perm.eq_nil hf.symm] at hg'
    injection hg with hga _
    injection hga with hga1 hga2
    injection hg' with hgc _
    injection hgc with hgc1 hgc2
    left
    rw [← hga1, ← hgc1, ← hga2, ← hgc2]
    exact ⟨rfl, rfl⟩
  · rw [List.perm_singleton.mp hf.symm] at hg'
    injection hg with hga _
    injection hga with hga1 hga2
    injection hg' with hgc _
    injection hgc with hgc1 hgc2
    left
    rw [← hga1, ← hgc1, ← hga2, ← hgc2]
    exact ⟨rfl, rfl⟩
  · rcases hvf' : l'.filter (fun x => isdigit x) with _ | ⟨x, _ | ⟨y, _ | ⟨z, t2⟩⟩⟩ <;>
      rw [hvf'] at hf hg'
    · have hl := hf.length_eq; simp at hl
    · have hl := hf.length_eq; simp at hl
    · injection hg with hga _
      injection hga with hga1 hga2
      injection hg' with hgc _
      injection hgc with hgc1 hgc2
      rcases perm_pair hf with ⟨rfl, rfl⟩ | ⟨rfl, rfl⟩
      · left
        rw [← hga1, ← hgc1, ← hga2, ← hgc2]
        exact ⟨rfl, rfl⟩
      · right
        rw [← hga1, ← hgc1, ← hga2, ← hgc2]
        exact ⟨rfl, rfl⟩
    · have hl := hf.length_eq; simp at hl
  · rcases hvf' : l'.filter (fun x => isdigit x) with _ | ⟨x, _ | ⟨y, _ | ⟨z, t2⟩⟩⟩ <;>
      rw [hvf'] at hf hg'
    · have hl := hf.length_eq; simp at hl
    · have hl := hf.length_eq; simp at hl
    · have hl := hf.length_eq; simp at hl
    · injection hg with hga _
      injection hga with hga1 hga2
      injection hg' with hgc _
      injection hgc with hgc1 hgc2
      left
      rw [← hga1, ← hgc1, ← hga2, ← hgc2]
      exact ⟨rfl, rfl⟩

/-- The years extracted by `get_years` are all-digit tokens. -/
lemma get_years_digit {tokens t1 : List String} {sy ey : Option String}
    (hg : get_years tokens = ((sy, ey), t1)) :
    ∀ y, (sy = some y ∨ ey = some y) → isdigit y = true := by
  unfold get_years at hg
  rcases hvf : tokens.filter (fun x => isdigit x) with _ | ⟨a, _ | ⟨b, _ | ⟨c, t0⟩⟩⟩ <;>
    rw [hvf] at hg <;>
    injection hg with hga _ <;>
    injection hga with hga1 hga2 <;>
    intro y hy <;>
    rw [← hga1] at * <;> rw [← hga2] at *
  · rcases hy with hy | hy <;> simp at hy
  · have ha : a ∈ tokens.filter (fun x => isdigit x) := by
      rw [hvf]; exact List.mem_cons_self a []
    rcases hy with hy | hy
    · injection hy with hy1
      rw [← hy1]
      exact (List.mem_filter.mp ha).2
    · simp at hy
  · have ha : a ∈ tokens.filter (fun x => isdigit x) := by
      rw [hvf]; exact List.mem_cons_self a [b]
    have hb : b ∈ tokens.filter (fun x => isdigit x) := by
      rw [hvf]; exact List.mem_cons_of_mem a (List.mem_cons_self b [])
    rcases hy with hy | hy
    · injection hy with hy1
      rw [← hy1]
      exact (List.mem_filter.mp ha).2
    · injection hy with hy1
      rw [← hy1]
      exact (List.mem_filter.mp hb).2
  · rcases hy with hy | hy <;> simp at hy

/-- The outcome of `assign_dates` given the extracted years: success exactly
when every extracted year passes the range check, the ValueError otherwise;
on success the remaining tokens are those of `get_years`. -/
lemma assign_dates_outcome {tokens t1 : List String} {sy ey : Option String}
    (hg : get_years tokens = ((sy, ey), t1))
    (hdig : ∀ y, (sy = some y ∨ ey = some y) → isdigit y = true) :
    ((opt_year_ok sy && opt_year_ok ey) = true ∧
      ∃ sd ed, assign_dates tokens = .ok ((sd, ed), t1)) ∨
    ((opt_year_ok sy && opt_year_ok ey) = false ∧
      assign_dates tokens = .error .valueError) := by
  have hadl : assign_dates tokens =
      match as_date sy 1 1 with
      | .error e => .error e
      | .ok sd =>
        match as_date ey 12 31 with
        | .error e => .error e
        | .ok ed => .ok ((sd, ed), t1) := by
    unfold assign_dates
    simp only [hg]
  rcases sy with _ | y1
  · rcases ey with _ | y2
    · left
      refine ⟨rfl, none, none, ?_⟩
      rw [hadl] <;> rfl
    · have h2 := hdig y2 (Or.inr rfl)
      have h2ne : y2 ≠ "" := by
        intro hh; rw [hh] at h2; exact absurd h2 (by decide)
      by_cases hr2 : year_in_range y2 = true
      · left
        refine ⟨by simp [opt_year_ok, hr2], none,
          some (toString (pyInt y2) ++ "-" ++ pad2 12 ++ "-" ++ pad2 31), ?_⟩
        rw [hadl, as_date_ok_of_range h2ne hr2 12 31] <;> rfl
      · have hr2f : year_in_range y2 = false := by simpa using hr2
        right
        refine ⟨by simp [opt_year_ok, hr2f], ?_⟩
        rw [hadl, as_date_err_of_range h2ne hr2f 12 31] <;> rfl
  · have h1 := hdig y1 (Or.inl rfl)
    have h1ne : y1 ≠ "" := by
      intro hh; rw [hh] at h1; exact absurd h1 (by decide)
    by_cases hr1 : year_in_range y1 = true
    · rcases ey with _ | y2
      · left
        refine ⟨by simp [opt_year_ok, hr1],
          some (toString (pyInt y1) ++ "-" ++ pad2 1 ++ "-" ++ pad2 1), none, ?_⟩
        rw [hadl, as_date_ok_of_range h1ne hr1 1 1] <;> rfl
      · have h2 := hdig y2 (Or.inr rfl)
        have h2ne : y2 ≠ "" := by
          intro hh; rw [hh] at h2; exact absurd h2 (by decide)
        by_cases hr2 : year_in_range y2 = true
        · left
          refine ⟨by simp [opt_year_ok, hr1, hr2],
            some (toString (pyInt y1) ++ "-" ++ pad2 1 ++ "-" ++ pad2 1),
            some (toString (pyInt y2) ++ "-" ++ pad2 12 ++ "-" ++ pad2 31), ?_⟩
          rw [hadl, as_date_ok_of_range h1ne hr1 1 1, as_date_ok_of_range h2ne hr2 12 31]
        · have hr2f : year_in_range y2 = false := by simpa using hr2
          right
          refine ⟨by simp [opt_year_ok, hr2f], ?_⟩
          rw [hadl, as_date_ok_of_range h1ne hr1 1 1, as_date_err_of_range h2ne hr2f 12 31]
    · have hr1f : year_in_range y1 = false := by simpa using hr1
      right
      refine ⟨by simp [opt_year_ok, hr1f], ?_⟩
      rw [hadl, as_date_err_of_range h1ne hr1f 1 1]

/-- On permuted token lists, `assign_dates` raises the ValueError on both or
succeeds on both, with permuted remainders. -/
lemma assign_dates_perm {l l' : List String} (h : l.Perm l') :
    (assign_dates l = .error .valueError ∧ assign_dates l' = .error .valueError) ∨
    (∃ sd ed sd' ed' t t', assign_dates l = .ok ((sd, ed), t) ∧
      assign_dates l' = .ok ((sd', ed'), t') ∧ t.Perm t') := by
  rcases hg : get_years l with ⟨⟨sy, ey⟩, t1⟩
  rcases hg' : get_years l' with ⟨⟨sy', ey'⟩, t1'⟩
  have hrest : t1.Perm t1' := by
    have h0 := get_years_rest_perm h
    rw [hg, hg'] at h0
    exact h0
  have hok : (opt_year_ok sy && opt_year_ok ey) = (opt_year_ok sy' && opt_year_ok ey') := by
    rcases get_years_vals_perm h hg hg' with ⟨rfl, rfl⟩ | ⟨h1, h2⟩
    · rfl
    · rw [h1, h2, Bool.and_comm]
  rcases assign_dates_outcome hg (get_years_digit hg) with ⟨hv, sd, ed, hds⟩ | ⟨hv, hds⟩
  · rcases assign_dates_outcome hg' (get_years_digit hg') with
      ⟨hv', sd', ed', hds'⟩ | ⟨hv', hds'⟩
    · right; exact ⟨sd, ed, sd', ed', t1, t1', hds, hds', hrest⟩
    · rw [hok] at hv
      exact absurd (hv'.symm.trans hv) (by decide)
  · rcases assign_dates_outcome hg' (get_years_digit hg') with
      ⟨hv', sd', ed', hds'⟩ | ⟨hv', hds'⟩
    · rw [hok] at hv
      exact absurd (hv.symm.trans hv') (by decide)
    · left; exact ⟨hds, hds'⟩

/-- The list of allowed values found among the tokens depends on the tokens
only through membership, hence is invariant under permutation. -/
lemma filter_mem_perm (allowed : List String) {l l' : List String} (h : l.Perm l') :
    allowed.filter (fun p => decide (p ∈ l)) = allowed.filter (fun p => decide (p ∈ l')) :=
  List.filter_congr (fun p _ => decide_eq_decide.mpr h.mem_iff)

/-- On permuted token lists, `assign_values` raises the same error or finds
the same value, leaving permuted remainders. -/
lemma assign_values_perm (allowed : List String) {l l' : List String} (h : l.Perm l') :
    (∃ e, assign_values l allowed = .error e ∧ assign_values l' allowed = .error e) ∨
    (∃ v t t', assign_values l allowed = .ok (v, t) ∧ assign_values l' allowed = .ok (v, t') ∧
      t.Perm t') := by
  unfold assign_values
  rw [filter_mem_perm allowed h]
  rcases hvf : allowed.filter (fun p => decide (p ∈ l')) with _ | ⟨x, _ | ⟨y, t0⟩⟩
  · right; exact ⟨none, l, l', rfl, rfl, h⟩
  · right; exact ⟨some x, l.erase x, l'.erase x, rfl, rfl, h.erase x⟩
  · left; exact ⟨.ambiguous (x :: y :: t0), rfl, rfl⟩

/-- Claim C1 (amended): decomposition is deterministic, and the finaliser,
rate and aggregator classification — error behaviour included — is invariant
under any permutation of the token sequence; the inner paths
`eop/2015/2017/csv` and `csv/2015/eop/2017` decompose to identical mappings.
Full order independence of the mapping fails: permuting the two year tokens
swaps the start and end dates, and permuting leftover tokens changes the unit
(see the counterexample). -/
theorem c1_fin_rate_agg_perm_invariant :
    (∀ l l' : List String, l.Perm l' →
      finRateAggOf (classifyTokens l) = finRateAggOf (classifyTokens l')) ∧
    innerPath "eop/2015/2017/csv" = innerPath "csv/2015/eop/2017" := by
  refine ⟨?_, by decide⟩
  intro l l' hp
  rcases assign_dates_perm hp with ⟨hdl, hdl'⟩ | ⟨sd, ed, sd', ed', t1, t1', hdl, hdl', hp1⟩
  · unfold classifyTokens
    simp only [hdl, hdl']
  · rcases assign_values_perm ALLOWED_FINALISERS hp1 with
      ⟨e, he, he'⟩ | ⟨fin, t2, t2', hok, hok', hp2⟩
    · unfold classifyTokens
      simp only [hdl, hdl', he, he']
    · rcases assign_values_perm ALLOWED_REAL_RATES hp2 with
        ⟨e, he, he'⟩ | ⟨rate, t3, t3', hok2, hok2', hp3⟩
      · unfold classifyTokens
        simp only [hdl, hdl', hok, hok', he, he']
      · rcases assign_values_perm ALLOWED_AGGREGATORS hp3 with
          ⟨e, he, he'⟩ | ⟨agg, t4, t4', hok3, hok3', hp4⟩
        · unfold classifyTokens
          simp only [hdl, hdl', hok, hok', hok2, hok2', he, he']
        · unfold classifyTokens
          simp only [hdl, hdl', hok, hok', hok2, hok2', hok3, hok3']
          cases hcond : pyTruthy rate && pyTruthy agg
          · cases t4 <;> cases t4' <;> rfl
          · rfl

/-- Witness for the amended claim C1 on a concrete pair of permuted token
lists. -/
theorem c1_witness :
    finRateAggOf (classifyTokens ["csv", "2015", "eop"]) =
      finRateAggOf (classifyTokens ["eop", "csv", "2015"]) :=
  c1_fin_rate_agg_perm_invariant.1 ["csv", "2015", "eop"] ["eop", "csv", "2015"] (by decide)

/-- Sample scenario 1 of the specification: the BRENT sample path decomposes
to the documented mapping. -/
lemma scenario_brent : innerPath "eop/2015/2017/csv" =
    .ok ⟨some "2015-01-01", some "2017-12-31", some "csv", none, some "eop", none⟩ := by decide

/-- Sample scenario 3 of the specification: a bare finaliser with no unit. -/
lemma scenario_usdrur : innerPath "xlsx" =
    .ok ⟨none, none, some "xlsx", none, none, none⟩ := by decide

end CustomApi
